import Mathlib

/-!
Shallow embedding of the `winlsa` Go package (src/winlsa.go) and of the
example program that drives it.  The package wraps three LSA entry points
(`LsaEnumerateLogonSessions`, `LsaGetLogonSessionData`,
`LsaFreeReturnBuffer`) from its `internal/lsa` subpackage and marshals the
native buffers into Go values.

Modelling conventions:
* machine integers are `Nat` (unsigned) or `Int` (signed) with explicit
  wrap-around (`% 2^64`, two's-complement casts) where the Go code can
  overflow;
* native memory holding UTF-16 data is a total function `Nat → Nat`
  giving the 16-bit word stored at a byte address (words live at
  `buf`, `buf+2`, `buf+4`, …);
* a Go `string` is modelled as the list of decoded code points
  (`List Nat`), which the UTF-8 encoding determines injectively;
* a Go `time.Time` is modelled as `Option Int`: `none` is the zero value
  `time.Time{}` and `some n` is `time.Unix(0, n)`.  This is faithful
  for equality: `time.Unix(0, n)` always carries a non-zero internal
  extended-seconds field and a location, so it is never the zero value,
  and distinct `n` in the int64 range give distinct instants;
* Go `error` results from the LSA wrappers are opaque values `Err := Nat`
  (`Option Err` when the sole question is nil / non-nil, `Except Err α`
  for a `(result, err)` pair where exactly one side is meaningful);
* the operating system is an oracle (`Env`) fixing the outcome of each
  LSA call; the public functions additionally return the list of LSA
  calls they perform, in order, so that call-count and call-order
  properties can be stated.
-/

namespace Winlsa

/-- Opaque model of a non-nil Go `error` value returned by an LSA wrapper. -/
abbrev Err := Nat

/-- `lsa.LUID` — modelled from the spec: the `internal/lsa` subpackage is not
under src/; the LUID record is the standard Windows locally-unique
identifier, a fixed-size pair of a 32-bit low part and a 32-bit high part.
Its contents are only ever copied, never inspected. -/
structure LUID where
  LowPart : Nat
  HighPart : Int
deriving DecidableEq, Repr

/-- `lsa.LSA_UNICODE_STRING` — modelled from the spec: the `internal/lsa`
subpackage is not under src/; this is the standard embedded UTF-16 string
descriptor the spec mentions, with `Length` and `MaximumLength` byte
counts (per the LSA_UNICODE_STRING convention) and `Buffer` the pointer
(0 when null). -/
structure LSA_UNICODE_STRING where
  Length : Nat
  MaximumLength : Nat
  Buffer : Nat
deriving DecidableEq, Repr

/-- The `n` 16-bit words a Go `[]uint16` slice of length `n` laid over byte
address `buf` of memory `mem` contains. -/
def utf16Words (mem : Nat → Nat) (buf n : Nat) : List Nat :=
  (List.range n).map (fun i => mem (buf + 2 * i))

/-- The NUL-truncation step of `syscall.UTF16ToString`: the code units
before the first 0, the whole list when no 0 occurs. -/
def takeUntilNul : List Nat → List Nat
  | [] => []
  | u :: rest => if u = 0 then [] else u :: takeUntilNul rest

/-- UTF-16 decoding as in Go's `unicode/utf16.Decode`: a high surrogate
followed by a low surrogate combines into one code point, any other
surrogate decodes to U+FFFD, everything else passes through.  (Newer Go
`syscall.UTF16ToString` keeps unpaired surrogates as WTF-8 instead of
U+FFFD; no theorem below involves unpaired surrogates, so nothing here
depends on that difference.) -/
def utf16Decode : List Nat → List Nat
  | [] => []
  | [u] => if 0xD800 ≤ u ∧ u < 0xE000 then [0xFFFD] else [u]
  | u :: v :: rest =>
    if 0xD800 ≤ u ∧ u < 0xDC00 then
      if 0xDC00 ≤ v ∧ v < 0xE000 then
        (0x10000 + (u - 0xD800) * 0x400 + (v - 0xDC00)) :: utf16Decode rest
      else
        0xFFFD :: utf16Decode (v :: rest)
    else if 0xDC00 ≤ u ∧ u < 0xE000 then
      0xFFFD :: utf16Decode (v :: rest)
    else
      u :: utf16Decode (v :: rest)

/-- `stringFromLSAString` (src/winlsa.go:134-144).  The Go code returns ""
when `Buffer` or `Length` is zero; otherwise it lays a `[]uint16` slice of
length `int(s.Length)` (note: the element count is set to the raw value of
the `Length` field) over the buffer and applies `syscall.UTF16ToString`,
which truncates at the first NUL and decodes. -/
def stringFromLSAString (mem : Nat → Nat) (s : LSA_UNICODE_STRING) : List Nat :=
  if s.Buffer = 0 ∨ s.Length = 0 then []
  else utf16Decode (takeUntilNul (utf16Words mem s.Buffer s.Length))

/-- The conversion C4 states, written from the spec's words: decode exactly
the UTF-16 code units that the descriptor's `Length` field — a byte count
per the LSA_UNICODE_STRING convention, hence `Length / 2` code units —
designates in the buffer. -/
def stringFromLSAString_specModel (mem : Nat → Nat) (s : LSA_UNICODE_STRING) : List Nat :=
  utf16Decode (utf16Words mem s.Buffer (s.Length / 2))

/-- 100-ns intervals between 1601-01-01 and the Unix epoch
(src/winlsa.go:149). -/
def windowsEpoch : Nat := 116444736000000000

/-- Two's-complement reinterpretation of a `uint64` value as `int64`
(the Go conversion `int64(x)`). -/
def toInt64 (n : Nat) : Int :=
  if n < 2 ^ 63 then (n : Int) else (n : Int) - 2 ^ 64

/-- Wrap-around of a mathematical integer into the `int64` range, as Go's
two's-complement `int64` arithmetic produces. -/
def wrap64 (x : Int) : Int :=
  (x + 2 ^ 63) % 2 ^ 64 - 2 ^ 63

/-- `timeFromUint64` (src/winlsa.go:145-151).  `0` and `^uint64(0)>>1 =
2^63-1` yield the zero `time.Time{}` (`none`); otherwise the Go code
computes `time.Unix(0, int64(nsec-windowsEpoch)*100)`: a wrapping `uint64`
subtraction, an `int64` reinterpretation, and a wrapping `int64`
multiplication by 100. -/
def timeFromUint64 (nsec : Nat) : Option Int :=
  if nsec = 0 ∨ nsec = 2 ^ 63 - 1 then none
  else some (wrap64 (toInt64 ((nsec + 2 ^ 64 - windowsEpoch) % 2 ^ 64) * 100))

/-- The conversion C5 states: the host time is the Unix epoch plus
`t - windowsEpoch` exact 100-ns intervals, with no sentinel or overflow
proviso. -/
def timeFromUint64_specModel (nsec : Nat) : Option Int :=
  some (((nsec : Int) - (windowsEpoch : Int)) * 100)

/-- `LogonType.String` (src/winlsa.go:23-54), a `switch` over the thirteen
constants `LogonTypeSystem = 0`, `LogonTypeInteractive = 2`, …,
`LogonTypeCachedUnlock = 13` (1 is skipped by the blank iota), with the
default branch `fmt.Sprintf("Undefined LogonType(%d)", lt)`. -/
def logonTypeString (lt : Nat) : String :=
  if lt = 0 then "System"
  else if lt = 2 then "Interactive"
  else if lt = 3 then "Network"
  else if lt = 4 then "Batch"
  else if lt = 5 then "Service"
  else if lt = 6 then "Proxy"
  else if lt = 7 then "Unlock"
  else if lt = 8 then "NetworkCleartext"
  else if lt = 9 then "NewCredentials"
  else if lt = 10 then "RemoteInteractive"
  else if lt = 11 then "CachedInteractive"
  else if lt = 12 then "CachedRemoteInteractive"
  else if lt = 13 then "CachedUnlock"
  else "Undefined LogonType(" ++ toString lt ++ ")"

/-- The thirteen names the `switch` in `LogonType.String` can return. -/
def definedLogonTypeNames : List String :=
  ["System", "Interactive", "Network", "Batch", "Service", "Proxy",
   "Unlock", "NetworkCleartext", "NewCredentials", "RemoteInteractive",
   "CachedInteractive", "CachedRemoteInteractive", "CachedUnlock"]

/-- `lsa.SECURITY_LOGON_SESSION_DATA` — modelled from the spec: the
`internal/lsa` subpackage is not under src/; this is the fixed-size native
record of the spec, with embedded UTF-16 string descriptors, 64-bit
file-time stamps, 32-bit scalars, and a SID pointer.  The field list is
exactly the set of fields `newLogonSessionData` reads.  The SID pointer is
modelled together with the bytes it points to as `Option (List Nat)`
(`none` = null pointer), since the Go code only ever null-checks it and
copies its bytes. -/
structure SECURITY_LOGON_SESSION_DATA where
  UserName : LSA_UNICODE_STRING
  LogonDomain : LSA_UNICODE_STRING
  AuthenticationPackage : LSA_UNICODE_STRING
  LogonType : Nat
  Session : Nat
  Sid : Option (List Nat)
  LogonTime : Nat
  LogonServer : LSA_UNICODE_STRING
  DnsDomainName : LSA_UNICODE_STRING
  Upn : LSA_UNICODE_STRING
  UserFlags : Nat
  LastSuccessfulLogon : Nat
  LastFailedLogon : Nat
  FailedAttemptCountSinceLastSuccessfulLogon : Nat
  LogonScript : LSA_UNICODE_STRING
  ProfilePath : LSA_UNICODE_STRING
  HomeDirectory : LSA_UNICODE_STRING
  HomeDirectoryDrive : LSA_UNICODE_STRING
  LogoffTime : Nat
  KickOffTime : Nat
  PasswordLastSet : Nat
  PasswordCanChange : Nat
  PasswordMustChange : Nat
deriving DecidableEq, Repr

/-- `(*windows.SID).Copy` as used on src/winlsa.go:105: `CopySid` duplicates
the SID's bytes into a fresh allocation, so the copy is byte-for-byte equal
to the original; its value depends on nothing but those bytes. -/
def sidCopy (bytes : List Nat) : Option (List Nat) :=
  some bytes

/-- `LogonSessionData` (src/winlsa.go:76-100) with strings as decoded code
point lists and times as `Option Int` (see the module comment). -/
structure LogonSessionData where
  UserName : List Nat
  LogonDomain : List Nat
  AuthenticationPackage : List Nat
  LogonType : Nat
  Session : Nat
  Sid : Option (List Nat)
  LogonTime : Option Int
  LogonServer : List Nat
  DnsDomainName : List Nat
  Upn : List Nat
  UserFlags : Nat
  LastSuccessfulLogon : Option Int
  LastFailedLogon : Option Int
  FailedAttemptCountSinceLastSuccessfulLogon : Nat
  LogonScript : List Nat
  ProfilePath : List Nat
  HomeDirectory : List Nat
  HomeDirectoryDrive : List Nat
  LogoffTime : Option Int
  KickOffTime : Option Int
  PasswordLastSet : Option Int
  PasswordCanChange : Option Int
  PasswordMustChange : Option Int
deriving DecidableEq, Repr

/-- `newLogonSessionData` (src/winlsa.go:102-132): copy the SID when
non-null (`sid, _ = data.Sid.Copy()`, the error discarded), convert every
descriptor with `stringFromLSAString` against the native memory `mem`, and
every file-time with `timeFromUint64`. -/
def newLogonSessionData (mem : Nat → Nat) (data : SECURITY_LOGON_SESSION_DATA) :
    LogonSessionData :=
  let sid : Option (List Nat) :=
    match data.Sid with
    | none => none
    | some bytes => sidCopy bytes
  { UserName := stringFromLSAString mem data.UserName
    LogonDomain := stringFromLSAString mem data.LogonDomain
    AuthenticationPackage := stringFromLSAString mem data.AuthenticationPackage
    LogonType := data.LogonType
    Session := data.Session
    Sid := sid
    LogonTime := timeFromUint64 data.LogonTime
    LogonServer := stringFromLSAString mem data.LogonServer
    DnsDomainName := stringFromLSAString mem data.DnsDomainName
    Upn := stringFromLSAString mem data.Upn
    UserFlags := data.UserFlags
    LogonScript := stringFromLSAString mem data.LogonScript
    ProfilePath := stringFromLSAString mem data.ProfilePath
    HomeDirectory := stringFromLSAString mem data.HomeDirectory
    HomeDirectoryDrive := stringFromLSAString mem data.HomeDirectoryDrive
    LogoffTime := timeFromUint64 data.LogoffTime
    KickOffTime := timeFromUint64 data.KickOffTime
    PasswordLastSet := timeFromUint64 data.PasswordLastSet
    PasswordCanChange := timeFromUint64 data.PasswordCanChange
    PasswordMustChange := timeFromUint64 data.PasswordMustChange
    LastSuccessfulLogon := timeFromUint64 data.LastSuccessfulLogon
    LastFailedLogon := timeFromUint64 data.LastFailedLogon
    FailedAttemptCountSinceLastSuccessfulLogon :=
      data.FailedAttemptCountSinceLastSuccessfulLogon }

/-- One call into the LSA, as recorded in a trace. -/
inductive OsCall where
  | enumerateLogonSessions
  | getLogonSessionData (luid : LUID)
  | freeReturnBuffer (buffer : Nat)
deriving DecidableEq, Repr

/-- The operating-system oracle: the outcome of each LSA entry point and the
contents of native memory.  `enumResult` is the `(count, buffer)` pair or
error of `LsaEnumerateLogonSessions`; `luidAt b i` the `i`-th LUID in the
enumeration buffer at address `b`; `getDataResult` the record pointer or
error of `LsaGetLogonSessionData` for a given LUID; `recordAt p` the
session-data record at address `p`; `mem` the UTF-16 memory the string
descriptors point into; `freeResult b` the error (or nil) of
`LsaFreeReturnBuffer` on buffer `b`. -/
structure Env where
  enumResult : Except Err (Nat × Nat)
  luidAt : Nat → Nat → LUID
  getDataResult : LUID → Except Err Nat
  recordAt : Nat → SECURITY_LOGON_SESSION_DATA
  mem : Nat → Nat
  freeResult : Nat → Option Err

/-- `GetLogonSessions` (src/winlsa.go:153-176), paired with its LSA call
trace.  On enumeration failure it returns `(nil, err)`; otherwise it copies
the `cnt` LUIDs out of the native buffer element by element into a fresh
slice, frees the buffer, and returns `(nil, err)` on free failure or the
copied slice on success. -/
def GetLogonSessions (env : Env) : List OsCall × Except Err (List LUID) :=
  match env.enumResult with
  | .error e => ([.enumerateLogonSessions], .error e)
  | .ok (cnt, buffer) =>
    let luids := (List.range cnt).map (fun idx => env.luidAt buffer idx)
    match env.freeResult buffer with
    | some e => ([.enumerateLogonSessions, .freeReturnBuffer buffer], .error e)
    | none => ([.enumerateLogonSessions, .freeReturnBuffer buffer], .ok luids)

/-- `GetLogonSessionData` (src/winlsa.go:177-191), paired with its LSA call
trace.  On query failure it returns `(nil, err)`; otherwise it converts the
native record with `newLogonSessionData`, frees the buffer, and returns
`(nil, err)` on free failure or the converted value on success. -/
def GetLogonSessionData (env : Env) (luid : LUID) :
    List OsCall × Except Err LogonSessionData :=
  match env.getDataResult luid with
  | .error e => ([.getLogonSessionData luid], .error e)
  | .ok p =>
    let sessionData := newLogonSessionData env.mem (env.recordAt p)
    match env.freeResult p with
    | some e => ([.getLogonSessionData luid, .freeReturnBuffer p], .error e)
    | none => ([.getLogonSessionData luid, .freeReturnBuffer p], .ok sessionData)

/-! ## Concrete inputs used by counterexamples and witnesses -/

/-- Memory holding the UTF-16 words `'A'` at byte address 4 and `'B'` at
byte address 6, zero elsewhere. -/
def memAB : Nat → Nat :=
  fun a => if a = 4 then 65 else if a = 6 then 66 else 0

/-- A descriptor for the one-code-unit string `"A"` at address 4:
`Length = 2` bytes, per the LSA_UNICODE_STRING convention. -/
def strA : LSA_UNICODE_STRING := ⟨2, 2, 4⟩

/-- Whether an `OsCall` is the enumeration call. -/
def OsCall.isEnum : OsCall → Bool
  | .enumerateLogonSessions => true
  | _ => false

/-- Whether an `OsCall` is a session-data query. -/
def OsCall.isGetData : OsCall → Bool
  | .getLogonSessionData _ => true
  | _ => false

/-- Whether an `OsCall` is a buffer free. -/
def OsCall.isFreeBuf : OsCall → Bool
  | .freeReturnBuffer _ => true
  | _ => false

/-- An all-zero descriptor. -/
def zeroStr : LSA_UNICODE_STRING := ⟨0, 0, 0⟩

/-- A session-data record with null descriptors, null SID and zero scalars. -/
def emptyRecord : SECURITY_LOGON_SESSION_DATA :=
  { UserName := zeroStr, LogonDomain := zeroStr, AuthenticationPackage := zeroStr,
    LogonType := 0, Session := 0, Sid := none, LogonTime := 0,
    LogonServer := zeroStr, DnsDomainName := zeroStr, Upn := zeroStr,
    UserFlags := 0, LastSuccessfulLogon := 0, LastFailedLogon := 0,
    FailedAttemptCountSinceLastSuccessfulLogon := 0,
    LogonScript := zeroStr, ProfilePath := zeroStr, HomeDirectory := zeroStr,
    HomeDirectoryDrive := zeroStr, LogoffTime := 0, KickOffTime := 0,
    PasswordLastSet := 0, PasswordCanChange := 0, PasswordMustChange := 0 }

/-- The zero LUID. -/
def luid0 : LUID := ⟨0, 0⟩

/-- An oracle on which every LSA call succeeds: the enumeration reports two
LUIDs in a buffer at address 64, session-data queries return a record at
address 128, and frees return nil. -/
def envOk : Env :=
  { enumResult := .ok (2, 64)
    luidAt := fun _ idx => ⟨idx, 0⟩
    getDataResult := fun _ => .ok 128
    recordAt := fun _ => emptyRecord
    mem := fun _ => 0
    freeResult := fun _ => none }

/-- An oracle on which every LSA call fails: enumeration with error 5,
session-data queries with error 7, frees with error 9. -/
def envErr : Env :=
  { enumResult := .error 5
    luidAt := fun _ idx => ⟨idx, 0⟩
    getDataResult := fun _ => .error 7
    recordAt := fun _ => emptyRecord
    mem := fun _ => 0
    freeResult := fun _ => some 9 }

/-! ## Trace-shape helpers -/

/-- The call trace of `GetLogonSessions` is the lone enumeration call or the
enumeration call followed by one buffer free. -/
theorem getLogonSessions_trace_shape (env : Env) :
    (GetLogonSessions env).1 = [.enumerateLogonSessions] ∨
    ∃ b, (GetLogonSessions env).1 =
      [.enumerateLogonSessions, .freeReturnBuffer b] := by
  unfold GetLogonSessions
  cases env.enumResult with
  | error e => exact Or.inl rfl
  | ok cb =>
    obtain ⟨cnt, buffer⟩ := cb
    cases hf : env.freeResult buffer
    · exact Or.inr ⟨buffer, by simp [hf]⟩
    · exact Or.inr ⟨buffer, by simp [hf]⟩

/-- The call trace of `GetLogonSessionData` is the lone query or the query
followed by one buffer free. -/
theorem getLogonSessionData_trace_shape (env : Env) (luid : LUID) :
    (GetLogonSessionData env luid).1 = [.getLogonSessionData luid] ∨
    ∃ b, (GetLogonSessionData env luid).1 =
      [.getLogonSessionData luid, .freeReturnBuffer b] := by
  unfold GetLogonSessionData
  cases env.getDataResult luid with
  | error e => exact Or.inl rfl
  | ok p =>
    cases hf : env.freeResult p
    · exact Or.inr ⟨p, by simp [hf]⟩
    · exact Or.inr ⟨p, by simp [hf]⟩

/-- Any call occurs at most once in a one-call trace. -/
theorem count_le_one_single (c x : OsCall) : List.count c [x] ≤ 1 := by
  simp [List.count_cons, List.count_nil]
  split <;> omega

/-- Any call occurs at most once in an enumeration-then-free trace. -/
theorem count_le_one_enum_free (c : OsCall) (b : Nat) :
    List.count c [OsCall.enumerateLogonSessions, OsCall.freeReturnBuffer b] ≤ 1 := by
  cases c <;> simp [List.count_cons, List.count_nil] <;> split <;> omega

/-- Any call occurs at most once in a query-then-free trace. -/
theorem count_le_one_get_free (c : OsCall) (l : LUID) (b : Nat) :
    List.count c [OsCall.getLogonSessionData l, OsCall.freeReturnBuffer b] ≤ 1 := by
  cases c <;> simp [List.count_cons, List.count_nil] <;> split <;> omega

/-! ## Theorems -/

/-- Claim C1: whenever the initial LSA query succeeds, the native buffer it
returned is passed to `LsaFreeReturnBuffer` exactly once before the
function returns, in `GetLogonSessions` as well as in
`GetLogonSessionData` (where the free happens after the conversion, on the
success path and on the free-error path alike). -/
theorem free_called_exactly_once (env : Env) (luid : LUID) :
    (∀ cnt buffer, env.enumResult = .ok (cnt, buffer) →
        List.count (.freeReturnBuffer buffer) (GetLogonSessions env).1 = 1) ∧
    (∀ p, env.getDataResult luid = .ok p →
        List.count (.freeReturnBuffer p) (GetLogonSessionData env luid).1 = 1) := by
  constructor
  · intro cnt buffer h
    unfold GetLogonSessions
    rw [h]
    cases hf : env.freeResult buffer <;>
      simp [hf, List.count_cons, List.count_nil]
  · intro p h
    unfold GetLogonSessionData
    rw [h]
    cases hf : env.freeResult p <;>
      simp [hf, List.count_cons, List.count_nil]

/-- Witness for C1 on the all-success oracle. -/
theorem free_called_exactly_once_witness :
    (envOk.enumResult = .ok (2, 64) ∧
      List.count (.freeReturnBuffer 64) (GetLogonSessions envOk).1 = 1) ∧
    (envOk.getDataResult luid0 = .ok 128 ∧
      List.count (.freeReturnBuffer 128) (GetLogonSessionData envOk luid0).1 = 1) :=
  ⟨⟨rfl, (free_called_exactly_once envOk luid0).1 2 64 rfl⟩,
    ⟨rfl, (free_called_exactly_once envOk luid0).2 128 rfl⟩⟩

/-- Claim C2: if any single underlying LSA call fails, the function returns
that same error value together with a nil result, and no LSA call is ever
retried (each call occurs at most once in the trace). -/
theorem error_propagated_unchanged (env : Env) (luid : LUID) :
    (∀ e, env.enumResult = .error e →
        GetLogonSessions env = ([.enumerateLogonSessions], .error e)) ∧
    (∀ cnt buffer e, env.enumResult = .ok (cnt, buffer) →
        env.freeResult buffer = some e →
        (GetLogonSessions env).2 = .error e) ∧
    (∀ e, env.getDataResult luid = .error e →
        GetLogonSessionData env luid = ([.getLogonSessionData luid], .error e)) ∧
    (∀ p e, env.getDataResult luid = .ok p → env.freeResult p = some e →
        (GetLogonSessionData env luid).2 = .error e) ∧
    (∀ c : OsCall, List.count c (GetLogonSessions env).1 ≤ 1 ∧
        List.count c (GetLogonSessionData env luid).1 ≤ 1) := by
  refine ⟨?_, ?_, ?_, ?_, ?_⟩
  · intro e h
    unfold GetLogonSessions
    rw [h]
  · intro cnt buffer e h hf
    unfold GetLogonSessions
    rw [h]
    simp [hf]
  · intro e h
    unfold GetLogonSessionData
    rw [h]
  · intro p e h hf
    unfold GetLogonSessionData
    rw [h]
    simp [hf]
  · intro c
    constructor
    · rcases getLogonSessions_trace_shape env with h | ⟨b, h⟩ <;> rw [h]
      · exact count_le_one_single c _
      · exact count_le_one_enum_free c b
    · rcases getLogonSessionData_trace_shape env luid with h | ⟨b, h⟩ <;> rw [h]
      · exact count_le_one_single c _
      · exact count_le_one_get_free c luid b

/-- Witness for C2 on the all-failure oracle. -/
theorem error_propagated_unchanged_witness :
    (envErr.enumResult = .error 5 ∧
      GetLogonSessions envErr = ([.enumerateLogonSessions], .error 5)) ∧
    (envErr.getDataResult luid0 = .error 7 ∧
      GetLogonSessionData envErr luid0 = ([.getLogonSessionData luid0], .error 7)) :=
  ⟨⟨rfl, (error_propagated_unchanged envErr luid0).1 5 rfl⟩,
    ⟨rfl, (error_propagated_unchanged envErr luid0).2.2.1 7 rfl⟩⟩

/-- Claim C6: each public operation performs its query exactly once —
`GetLogonSessions` one enumeration and `GetLogonSessionData` one
session-data query, on exactly the LUID it was given — and the only other
OS interaction is at most one buffer free. -/
theorem single_os_round_trip (env : Env) (luid : LUID) :
    (List.countP OsCall.isEnum (GetLogonSessions env).1 = 1 ∧
      List.countP OsCall.isGetData (GetLogonSessions env).1 = 0 ∧
      List.countP OsCall.isFreeBuf (GetLogonSessions env).1 ≤ 1) ∧
    (List.count (.getLogonSessionData luid) (GetLogonSessionData env luid).1 = 1 ∧
      List.countP OsCall.isGetData (GetLogonSessionData env luid).1 = 1 ∧
      List.countP OsCall.isEnum (GetLogonSessionData env luid).1 = 0 ∧
      List.countP OsCall.isFreeBuf (GetLogonSessionData env luid).1 ≤ 1) := by
  constructor
  · rcases getLogonSessions_trace_shape env with h | ⟨b, h⟩ <;>
      simp [h, List.countP_cons, OsCall.isEnum, OsCall.isGetData, OsCall.isFreeBuf]
  · rcases getLogonSessionData_trace_shape env luid with h | ⟨b, h⟩ <;>
      simp [h, List.countP_cons, List.count_cons, List.count_nil,
        OsCall.isEnum, OsCall.isGetData, OsCall.isFreeBuf]

/-- Claim C7: the operations are read-only value copies.  On success
`GetLogonSessions` returns exactly the element-by-element copy of the
`cnt` LUIDs in the native buffer; on success `GetLogonSessionData` returns
exactly the conversion of the native record, whose SID is a byte copy of
the native SID; and every LSA call `GetLogonSessionData` makes carries the
LUID it was given, unmodified. -/
theorem read_only_value_copies (env : Env) (luid : LUID) :
    (∀ cnt buffer luids, env.enumResult = .ok (cnt, buffer) →
        (GetLogonSessions env).2 = .ok luids →
        luids = (List.range cnt).map (fun idx => env.luidAt buffer idx)) ∧
    (∀ p sd, env.getDataResult luid = .ok p →
        (GetLogonSessionData env luid).2 = .ok sd →
        sd = newLogonSessionData env.mem (env.recordAt p) ∧
        sd.Sid = Option.bind (env.recordAt p).Sid sidCopy) ∧
    (∀ c ∈ (GetLogonSessionData env luid).1,
        c = .getLogonSessionData luid ∨ ∃ b, c = .freeReturnBuffer b) := by
  refine ⟨?_, ?_, ?_⟩
  · intro cnt buffer luids h h2
    unfold GetLogonSessions at h2
    rw [h] at h2
    cases hf : env.freeResult buffer <;> simp [hf] at h2
    exact h2.symm
  · intro p sd h h2
    unfold GetLogonSessionData at h2
    rw [h] at h2
    cases hf : env.freeResult p <;> simp [hf] at h2
    subst h2
    refine ⟨rfl, ?_⟩
    unfold newLogonSessionData
    cases (env.recordAt p).Sid <;> rfl
  · intro c hc
    rcases getLogonSessionData_trace_shape env luid with h | ⟨b, h⟩ <;>
      rw [h] at hc <;> simp at hc
    · exact Or.inl hc
    · rcases hc with hc | hc
      · exact Or.inl hc
      · exact Or.inr ⟨b, hc⟩

/-- Witness for C7 on the all-success oracle: the returned slice is the
copy of the two native LUIDs, and the returned record is the conversion of
the native record with a copied (null) SID. -/
theorem read_only_value_copies_witness :
    (envOk.enumResult = .ok (2, 64) ∧
      (GetLogonSessions envOk).2 = .ok [⟨0, 0⟩, ⟨1, 0⟩] ∧
      ([⟨0, 0⟩, ⟨1, 0⟩] : List LUID) =
        (List.range 2).map (fun idx => envOk.luidAt 64 idx)) ∧
    (envOk.getDataResult luid0 = .ok 128 ∧
      (GetLogonSessionData envOk luid0).2 =
        .ok (newLogonSessionData envOk.mem (envOk.recordAt 128)) ∧
      (newLogonSessionData envOk.mem (envOk.recordAt 128)).Sid =
        Option.bind (envOk.recordAt 128).Sid sidCopy) :=
  ⟨⟨rfl, rfl,
      (read_only_value_copies envOk luid0).1 2 64 [⟨0, 0⟩, ⟨1, 0⟩] rfl rfl⟩,
    ⟨rfl, rfl,
      ((read_only_value_copies envOk luid0).2.1 128
          (newLogonSessionData envOk.mem (envOk.recordAt 128)) rfl rfl).2⟩⟩

/-- Claim C8: for every `LSA_UNICODE_STRING` whose `Buffer` pointer is zero
or whose `Length` field is zero, `stringFromLSAString` returns the empty
string, and does so without dereferencing the buffer: the result is the
same for every memory. -/
theorem stringFromLSAString_null_or_empty (s : LSA_UNICODE_STRING)
    (h : s.Buffer = 0 ∨ s.Length = 0) :
    ∀ mem mem' : Nat → Nat,
      stringFromLSAString mem s = [] ∧
      stringFromLSAString mem s = stringFromLSAString mem' s := by
  intro mem mem'
  unfold stringFromLSAString
  rw [if_pos h, if_pos h]
  exact ⟨rfl, rfl⟩

/-- Witness for C8 at the all-zero descriptor and two distinct memories. -/
theorem stringFromLSAString_null_or_empty_witness :
    ((⟨0, 0, 0⟩ : LSA_UNICODE_STRING).Buffer = 0 ∨
      (⟨0, 0, 0⟩ : LSA_UNICODE_STRING).Length = 0) ∧
    (stringFromLSAString (fun _ => 65) ⟨0, 0, 0⟩ = [] ∧
      stringFromLSAString (fun _ => 65) ⟨0, 0, 0⟩ =
        stringFromLSAString (fun _ => 66) ⟨0, 0, 0⟩) :=
  ⟨Or.inl rfl,
    stringFromLSAString_null_or_empty ⟨0, 0, 0⟩ (Or.inl rfl) (fun _ => 65) (fun _ => 66)⟩

/-- Claim C4, evaluated at the failing input: on a descriptor with
`Length = 2` (two bytes, i.e. one code unit `'A'` per the
LSA_UNICODE_STRING convention) whose buffer is followed by the non-NUL
word `'B'`, the code decodes the two code units `"AB"` — it uses the
`Length` field as a count of `uint16` elements (`sh.Len = int(s.Length)`
on a `[]uint16`, src/winlsa.go:141) and truncates at the first NUL —
while the conversion the claim states decodes exactly the one designated
code unit `"A"`. -/
theorem stringFromLSAString_misreads_length :
    stringFromLSAString memAB strA = [65, 66] ∧
    stringFromLSAString_specModel memAB strA = [65] := by
  constructor <;> rfl

/-- Claim C9: `timeFromUint64` maps the sentinels `0` and `2^63 - 1` to the
zero `time.Time`, and for inputs at or above the Windows epoch offset the
result is the zero time only for the sentinel `2^63 - 1`. -/
theorem timeFromUint64_sentinels (t : Nat) (h1 : windowsEpoch ≤ t) (h2 : t < 2 ^ 64) :
    timeFromUint64 0 = none ∧
    timeFromUint64 (2 ^ 63 - 1) = none ∧
    (timeFromUint64 t = none ↔ t = 2 ^ 63 - 1) := by
  refine ⟨by simp [timeFromUint64], by simp [timeFromUint64], ?_, ?_⟩
  · intro h
    unfold timeFromUint64 at h
    split at h
    · rename_i hc
      rcases hc with h0 | h0
      · exact absurd h1 (by simp [h0, windowsEpoch])
      · exact h0
    · exact absurd h (by simp)
  · intro h
    simp [timeFromUint64, h]

/-- Witness for C9 at `t = windowsEpoch`: the hypotheses hold and the
conversion of the epoch itself is not the zero time. -/
theorem timeFromUint64_sentinels_witness :
    (windowsEpoch ≤ windowsEpoch ∧ windowsEpoch < 2 ^ 64) ∧
    (timeFromUint64 0 = none ∧
      timeFromUint64 (2 ^ 63 - 1) = none ∧
      (timeFromUint64 windowsEpoch = none ↔ windowsEpoch = 2 ^ 63 - 1)) :=
  ⟨⟨le_refl _, by decide⟩,
    timeFromUint64_sentinels windowsEpoch (le_refl _) (by decide)⟩

/-- Claim C5 as stated is false: at the file-time `t = 1` (smaller than the
Windows epoch offset) the Go `int64` multiplication by 100 wraps around,
so the result is not the Unix epoch plus `(t - windowsEpoch)` 100-ns
intervals. -/
theorem timeFromUint64_small_input_wraps :
    timeFromUint64 1 ≠ timeFromUint64_specModel 1 := by decide

/-- Claim C5, amended: for every non-sentinel `t < 2^64` such that
`(t - windowsEpoch) * 100` fits in a signed 64-bit integer — in particular
every `t` from `windowsEpoch` up to `windowsEpoch + 92233720368547758` —
the conversion equals the Unix epoch plus `(t - windowsEpoch)` exact
100-ns intervals; for `t` outside that window the `int64` arithmetic
wraps, and the sentinels map to the zero time. -/
theorem timeFromUint64_in_range (t : Nat) (h64 : t < 2 ^ 64)
    (h0 : t ≠ 0) (hs : t ≠ 2 ^ 63 - 1)
    (hlo : -(2 ^ 63 : Int) ≤ ((t : Int) - (windowsEpoch : Int)) * 100)
    (hhi : ((t : Int) - (windowsEpoch : Int)) * 100 < 2 ^ 63) :
    timeFromUint64 t = timeFromUint64_specModel t := by
  have hcond : ¬(t = 0 ∨ t = 2 ^ 63 - 1) := by
    rintro (h | h) <;> [exact h0 h; exact hs h]
  unfold timeFromUint64 timeFromUint64_specModel
  rw [if_neg hcond]
  simp only [windowsEpoch] at hlo hhi ⊢
  have key : toInt64 ((t + 2 ^ 64 - 116444736000000000) % 2 ^ 64) =
      (t : Int) - ((116444736000000000 : Nat) : Int) := by
    unfold toInt64
    split <;> omega
  rw [key]
  simp only [wrap64, Option.some.injEq]
  omega

/-- Witness for C5's amended theorem at `t = windowsEpoch + 5`, whose
conversion is 500 ns after the Unix epoch. -/
theorem timeFromUint64_in_range_witness :
    (windowsEpoch + 5 < 2 ^ 64 ∧ windowsEpoch + 5 ≠ 0 ∧
      windowsEpoch + 5 ≠ 2 ^ 63 - 1 ∧
      -(2 ^ 63 : Int) ≤ (((windowsEpoch + 5 : Nat) : Int) - (windowsEpoch : Int)) * 100 ∧
      (((windowsEpoch + 5 : Nat) : Int) - (windowsEpoch : Int)) * 100 < 2 ^ 63) ∧
    timeFromUint64 (windowsEpoch + 5) = timeFromUint64_specModel (windowsEpoch + 5) :=
  ⟨⟨by decide, by decide, by decide, by decide, by decide⟩,
    timeFromUint64_in_range (windowsEpoch + 5) (by decide) (by decide) (by decide)
      (by decide) (by decide)⟩

/-- Reading a descriptor gives the same string against two memories that
agree on the word range the descriptor designates. -/
theorem stringFromLSAString_congr (mem1 mem2 : Nat → Nat) (s : LSA_UNICODE_STRING)
    (h : utf16Words mem1 s.Buffer s.Length = utf16Words mem2 s.Buffer s.Length) :
    stringFromLSAString mem1 s = stringFromLSAString mem2 s := by
  unfold stringFromLSAString
  split
  · rfl
  · rw [h]

/-- Claim C3: `newLogonSessionData` is deterministic.  Two calls on records
with byte-for-byte equal contents — the records equal (the SID field in
this model already carries the pointed-to bytes) and the memories equal on
every word range the embedded string descriptors designate — produce equal
`LogonSessionData` values, field by field. -/
theorem newLogonSessionData_deterministic (mem1 mem2 : Nat → Nat)
    (d1 d2 : SECURITY_LOGON_SESSION_DATA) (hd : d1 = d2)
    (hc : ∀ s ∈ [d1.UserName, d1.LogonDomain, d1.AuthenticationPackage,
        d1.LogonServer, d1.DnsDomainName, d1.Upn, d1.LogonScript,
        d1.ProfilePath, d1.HomeDirectory, d1.HomeDirectoryDrive],
        utf16Words mem1 s.Buffer s.Length = utf16Words mem2 s.Buffer s.Length) :
    newLogonSessionData mem1 d1 = newLogonSessionData mem2 d2 := by
  subst hd
  simp only [List.mem_cons, List.not_mem_nil, or_false, forall_eq_or_imp,
    forall_eq] at hc
  obtain ⟨h1, h2, h3, h4, h5, h6, h7, h8, h9, h10⟩ := hc
  unfold newLogonSessionData
  simp only [LogonSessionData.mk.injEq, and_true, true_and]
  exact ⟨stringFromLSAString_congr mem1 mem2 _ h1,
    stringFromLSAString_congr mem1 mem2 _ h2,
    stringFromLSAString_congr mem1 mem2 _ h3,
    stringFromLSAString_congr mem1 mem2 _ h4,
    stringFromLSAString_congr mem1 mem2 _ h5,
    stringFromLSAString_congr mem1 mem2 _ h6,
    stringFromLSAString_congr mem1 mem2 _ h7,
    stringFromLSAString_congr mem1 mem2 _ h8,
    stringFromLSAString_congr mem1 mem2 _ h9,
    stringFromLSAString_congr mem1 mem2 _ h10⟩

/-- Memory with the word `'A'` everywhere. -/
def memW1 : Nat → Nat := fun _ => 65

/-- Memory with the word `'A'` below byte address 100 and zero above: a
different memory object with the same contents on the ranges `recordW`
designates. -/
def memW2 : Nat → Nat := fun a => if a < 100 then 65 else 0

/-- A record whose `UserName` designates two words at addresses 4 and 6 and
whose SID bytes are `[1, 2, 3]`. -/
def recordW : SECURITY_LOGON_SESSION_DATA :=
  { emptyRecord with UserName := ⟨2, 2, 4⟩, Sid := some [1, 2, 3] }

/-- Witness for C3 at two different memory objects with equal designated
contents. -/
theorem newLogonSessionData_deterministic_witness :
    (recordW = recordW ∧
      (∀ s ∈ [recordW.UserName, recordW.LogonDomain, recordW.AuthenticationPackage,
          recordW.LogonServer, recordW.DnsDomainName, recordW.Upn, recordW.LogonScript,
          recordW.ProfilePath, recordW.HomeDirectory, recordW.HomeDirectoryDrive],
          utf16Words memW1 s.Buffer s.Length = utf16Words memW2 s.Buffer s.Length)) ∧
    newLogonSessionData memW1 recordW = newLogonSessionData memW2 recordW :=
  ⟨⟨rfl, by decide⟩,
    newLogonSessionData_deterministic memW1 memW2 recordW recordW rfl (by decide)⟩

/-- The default branch of `LogonType.String`: any value other than 0 and
2–13 formats as `Undefined LogonType(n)`. -/
theorem logonTypeString_default (lt : Nat) (h : ¬(lt = 0 ∨ 2 ≤ lt ∧ lt ≤ 13)) :
    logonTypeString lt = "Undefined LogonType(" ++ toString lt ++ ")" := by
  have hn : lt ≠ 0 ∧ lt ≠ 2 ∧ lt ≠ 3 ∧ lt ≠ 4 ∧ lt ≠ 5 ∧ lt ≠ 6 ∧ lt ≠ 7 ∧
      lt ≠ 8 ∧ lt ≠ 9 ∧ lt ≠ 10 ∧ lt ≠ 11 ∧ lt ≠ 12 ∧ lt ≠ 13 := by omega
  obtain ⟨n0, n2, n3, n4, n5, n6, n7, n8, n9, n10, n11, n12, n13⟩ := hn
  simp only [logonTypeString, if_neg n0, if_neg n2, if_neg n3, if_neg n4,
    if_neg n5, if_neg n6, if_neg n7, if_neg n8, if_neg n9, if_neg n10,
    if_neg n11, if_neg n12, if_neg n13]

/-- The length of a default-branch result. -/
theorem undefined_length (t : String) :
    ("Undefined LogonType(" ++ t ++ ")").length = 21 + t.length := by
  rw [String.length_append, String.length_append]
  show 20 + t.length + 1 = 21 + t.length
  omega

/-- The first character of a default-branch result. -/
theorem undefined_head (t : String) :
    ("Undefined LogonType(" ++ t ++ ")").data.head? = some 'U' := by
  rw [String.data_append, String.data_append]
  rfl

/-- A default-branch result is too long to be any defined name shorter than
21 characters. -/
theorem undefined_ne_short (t n : String) (hn : n.length < 21)
    (h : "Undefined LogonType(" ++ t ++ ")" = n) : False := by
  have hlen := undefined_length t
  rw [h] at hlen
  omega

/-- A default-branch result is none of the thirteen defined names. -/
theorem undefined_notin_names (t : String) :
    ("Undefined LogonType(" ++ t ++ ")") ∉ definedLogonTypeNames := by
  intro hmem
  simp only [definedLogonTypeNames, List.mem_cons, List.not_mem_nil,
    or_false] at hmem
  rcases hmem with h|h|h|h|h|h|h|h|h|h|h|h|h
  · exact undefined_ne_short t _ (by decide) h
  · exact undefined_ne_short t _ (by decide) h
  · exact undefined_ne_short t _ (by decide) h
  · exact undefined_ne_short t _ (by decide) h
  · exact undefined_ne_short t _ (by decide) h
  · exact undefined_ne_short t _ (by decide) h
  · exact undefined_ne_short t _ (by decide) h
  · exact undefined_ne_short t _ (by decide) h
  · exact undefined_ne_short t _ (by decide) h
  · exact undefined_ne_short t _ (by decide) h
  · exact undefined_ne_short t _ (by decide) h
  · have hhead := undefined_head t
    rw [h] at hhead
    exact absurd hhead (by decide)
  · exact undefined_ne_short t _ (by decide) h

/-- Claim C10: `LogonType.String` is total and returns a non-empty string
for every 32-bit value; it returns one of the thirteen defined names
exactly for 0 and 2 through 13, and the string `Undefined LogonType(n)`
for every other value. -/
theorem logonTypeString_total (lt : Nat) (h32 : lt < 2 ^ 32) :
    logonTypeString lt ≠ "" ∧
    (logonTypeString lt ∈ definedLogonTypeNames ↔ (lt = 0 ∨ 2 ≤ lt ∧ lt ≤ 13)) ∧
    (¬(lt = 0 ∨ 2 ≤ lt ∧ lt ≤ 13) →
      logonTypeString lt = "Undefined LogonType(" ++ toString lt ++ ")") := by
  by_cases hd : lt = 0 ∨ 2 ≤ lt ∧ lt ≤ 13
  · have hv : lt = 0 ∨ lt = 2 ∨ lt = 3 ∨ lt = 4 ∨ lt = 5 ∨ lt = 6 ∨ lt = 7 ∨
        lt = 8 ∨ lt = 9 ∨ lt = 10 ∨ lt = 11 ∨ lt = 12 ∨ lt = 13 := by omega
    rcases hv with h|h|h|h|h|h|h|h|h|h|h|h|h <;> subst h <;>
      exact ⟨by decide, by decide, fun hc => (hc (by omega)).elim⟩
  · have hu := logonTypeString_default lt hd
    refine ⟨?_, ?_, fun _ => hu⟩
    · rw [hu]
      intro he
      have hlen := undefined_length (toString lt)
      rw [he] at hlen
      have h0 : ("" : String).length = 0 := rfl
      omega
    · rw [hu]
      constructor
      · intro hmem
        exact absurd hmem (undefined_notin_names _)
      · intro hr
        exact absurd hr hd

/-- Witness for C10 at the undefined value 14. -/
theorem logonTypeString_total_witness :
    (14 : Nat) < 2 ^ 32 ∧
    (logonTypeString 14 ≠ "" ∧
      (logonTypeString 14 ∈ definedLogonTypeNames ↔
        ((14 : Nat) = 0 ∨ 2 ≤ (14 : Nat) ∧ (14 : Nat) ≤ 13)) ∧
      (¬((14 : Nat) = 0 ∨ 2 ≤ (14 : Nat) ∧ (14 : Nat) ≤ 13) →
        logonTypeString 14 = "Undefined LogonType(" ++ toString (14 : Nat) ++ ")")) :=
  ⟨by decide, logonTypeString_total 14 (by decide)⟩

end Winlsa
